import Mathlib

/- Shallow embedding of `src/raiden_installer/raiden.py` (the raiden-wizard
   client manager): version-modifier parsing and descriptor comparison,
   the web-UI readiness polling loop, the installer, process discovery,
   and the two release-listing adapters.  Pure Python functions become Lean
   functions; the polling loop becomes a fuel-indexed interpreter over an
   environment of oracle answers; filesystem effects become explicit state
   passing over an association-list filesystem. -/

/-! ## Version modifier parsing (`extract_version_modifier`) -/

/-- Splits the longest leading run of decimal digits off a character list.
Embeds the greedy `\d+` content of the `number` group (maximal munch; the
regex never has to backtrack into this group because every continuation
after a digit run starts with a non-digit character). -/
def takeDigits : List Char → List Char × List Char
  | [] => ([], [])
  | c :: rest =>
    if c.isDigit then ((takeDigits rest).1.cons c, (takeDigits rest).2)
    else ([], c :: rest)

/-- Consumes the optional dash of `-?` when one is present. -/
def dropDash : List Char → List Char
  | c :: rest => if c = '-' then rest else c :: rest
  | [] => []

/-- Embeds the `-?(?P<number>\d+)` tail of the modifier pattern, applied after
a release token has been consumed: an optional dash, then at least one digit.
If a dash is present but no digit follows it, the greedy `-?` backtracks to
consuming nothing and `\d+` then fails on the dash, so the whole tail fails:
both paths yield `none` here. -/
def tryNum (s : List Char) : Option String :=
  if ((takeDigits (dropDash s)).1).isEmpty then none
  else some (String.mk (takeDigits (dropDash s)).1)

/-- Matches a literal character-list pattern against the start of the input,
returning the remainder on success. -/
def matchExact : List Char → List Char → Option (List Char)
  | [], s => some s
  | _ :: _, [] => none
  | p :: ps, c :: cs => if p = c then matchExact ps cs else none

/-- Tries one alternative of the `(a|alpha|b|beta|rc)` group at the current
position, followed by the mandatory `-?\d+` continuation. -/
def tryAlt (alt : List Char) (s : List Char) : Option String :=
  match matchExact alt s with
  | some rest => tryNum rest
  | none => none

/-- Tries the alternatives of `(?P<release>(a|alpha|b|beta|rc))-?(?P<number>\d+)`
at a fixed position, in the left-to-right order Python's `re` uses, each with
its continuation; returns the release token and the captured number. -/
def matchModAt (s : List Char) : Option (String × String) :=
  match tryAlt "a".data s with
  | some n => some ("a", n)
  | none =>
    match tryAlt "alpha".data s with
    | some n => some ("alpha", n)
    | none =>
      match tryAlt "b".data s with
      | some n => some ("b", n)
      | none =>
        match tryAlt "beta".data s with
        | some n => some ("beta", n)
        | none =>
          match tryAlt "rc".data s with
          | some n => some ("rc", n)
          | none => none

/-- Embeds `re.search` of the modifier pattern: tries every start position
left to right and returns the first (leftmost) full match. -/
def searchMod : List Char → Option (String × String)
  | [] => none
  | c :: rest =>
    match matchModAt (c :: rest) with
    | some rn => some rn
    | none => searchMod rest

/-- Embeds the release-token normalisation dictionary of
`extract_version_modifier`: `a`/`alpha` map to `alpha`, `b`/`beta` to `beta`,
`rc` to `rc`, and the dictionary default is `dev`. -/
def normalizeModifier (r : String) : String :=
  if r = "a" then "alpha"
  else if r = "alpha" then "alpha"
  else if r = "b" then "beta"
  else if r = "beta" then "beta"
  else if r = "rc" then "rc"
  else if r = "dev" then "dev"
  else "dev"

/-- Embeds `extract_version_modifier(release_name)`: `None` or the empty
string yield no modifier (`if not release_name`); otherwise the modifier
pattern is searched for and the token is normalised. -/
def extract_version_modifier : Option String → Option (String × String)
  | none => none
  | some s =>
    if s = "" then none
    else (searchMod s.data).map fun rn => (normalizeModifier rn.1, rn.2)

/-- Embeds `order_version_modifier`: the index of the argument in the list
`["dev", "alpha", "beta", "rc"]`, with `-1` for anything not in the list
(the `ValueError` branch), including `None`. -/
def order_version_modifier (m : Option String) : Int :=
  match m with
  | none => -1
  | some s =>
    if s = "dev" then 0
    else if s = "alpha" then 1
    else if s = "beta" then 2
    else if s = "rc" then 3
    else -1

/-! ## Version data and descriptor comparison -/

/-- Embeds the `VersionData` dataclass: the numeric components are stored as
text, `extra` is an optional free-form suffix. -/
structure VersionData where
  major : String
  minor : String
  revision : String
  extra : Option String := none
deriving DecidableEq

/-- Embeds the `RaidenClient.version_modifier` property:
the normalised kind of the parsed modifier, if any. -/
def version_modifier (v : VersionData) : Option String :=
  (extract_version_modifier v.extra).map Prod.fst

/-- Embeds the `RaidenClient.version_modifier_number` property:
the captured digit string of the parsed modifier, if any. -/
def version_modifier_number (v : VersionData) : Option String :=
  (extract_version_modifier v.extra).map Prod.snd

/-- Python lexicographic order on character lists (code-point comparison,
first difference decides, proper prefix is smaller). -/
def pyListLt : List Char → List Char → Bool
  | [], [] => false
  | [], _ :: _ => true
  | _ :: _, [] => false
  | a :: ra, b :: rb => if a = b then pyListLt ra rb else decide (a < b)

/-- Python `<` on strings. -/
def pyStrLt (a b : String) : Bool := pyListLt a.data b.data

/-- Python `>` on strings (the mirror of `<`). -/
def pyStrGt (a b : String) : Bool := pyStrLt b a

/-- Python truthiness of an optional string: `None` and `""` are falsy. -/
def pyTruthyStr : Option String → Bool
  | none => false
  | some s => decide (s ≠ "")

/-- Embeds `RaidenClient.__lt__` field for field, including the tie-break
that compares the left operand's modifier order against
`order_version_modifier(other.version_modifier_number)` — the other
operand's modifier NUMBER, exactly as the source reads. -/
def client_lt (a b : VersionData) : Bool :=
  if a.major ≠ b.major then pyStrLt a.major b.major
  else if a.minor ≠ b.minor then pyStrLt a.minor b.minor
  else if a.revision ≠ b.revision then pyStrLt a.revision b.revision
  else if version_modifier a ≠ version_modifier b then
    decide (order_version_modifier (version_modifier a) <
      order_version_modifier (version_modifier_number b))
  else if pyTruthyStr (version_modifier_number a) && pyTruthyStr (version_modifier_number b) then
    pyStrLt ((version_modifier_number a).getD "") ((version_modifier_number b).getD "")
  else false

/-- Embeds `RaidenClient.__gt__` field for field; its modifier tie-break
compares `order_version_modifier` of the two operands' modifiers. -/
def client_gt (a b : VersionData) : Bool :=
  if a.major ≠ b.major then pyStrGt a.major b.major
  else if a.minor ≠ b.minor then pyStrGt a.minor b.minor
  else if a.revision ≠ b.revision then pyStrGt a.revision b.revision
  else if version_modifier a ≠ version_modifier b then
    decide (order_version_modifier (version_modifier a) >
      order_version_modifier (version_modifier b))
  else if pyTruthyStr (version_modifier_number a) && pyTruthyStr (version_modifier_number b) then
    pyStrGt ((version_modifier_number a).getD "") ((version_modifier_number b).getD "")
  else false

/-- Embeds `RaidenClient.__eq__`: component-wise equality of the numeric
triple, the modifier kind and the modifier number. -/
def client_eq (a b : VersionData) : Bool :=
  (a.major == b.major) && (a.minor == b.minor) && (a.revision == b.revision)
    && (version_modifier a == version_modifier b)
    && (version_modifier_number a == version_modifier_number b)

/-- Modelled from the spec: the fixed modifier precedence list
`dev < alpha < beta < rc < none` read as the claim orders it, here written
lowest first with the position of a missing modifier made explicit so the
code's ordering can be compared against it. -/
def modifier_precedence : List (Option String) :=
  [none, some "dev", some "alpha", some "beta", some "rc"]

/-- Rank of a modifier kind in the precedence list. -/
def modifier_rank (m : Option String) : Nat := modifier_precedence.indexOf m

/-- Stable descriptor `v1.2.0` (no extra). -/
def vStable : VersionData := ⟨"1", "2", "0", none⟩

/-- Release-candidate descriptor `v1.2.0rc1`. -/
def vRc1 : VersionData := ⟨"1", "2", "0", some "rc1"⟩

/-- Alpha descriptor `v1.2.0a1`. -/
def vAlpha1 : VersionData := ⟨"1", "2", "0", some "a1"⟩

/-- Descriptor with major component `10`. -/
def vTen : VersionData := ⟨"10", "0", "0", none⟩

/-- Descriptor with major component `9`. -/
def vNine : VersionData := ⟨"9", "0", "0", none⟩

/-! ## Process discovery and status classification
(`get_process_id`, `is_zombie`) -/

/-- One OS process as seen through psutil: pid, name, the status string
psutil reports (`"dead"`, `"zombie"`, `"running"`, ...), and whether
querying it raises `psutil.ZombieProcess`. -/
structure ProcInfo where
  pid : Nat
  name : String
  status : String
  raisesZombieError : Bool
deriving DecidableEq

/-- Embeds the Python expression `x is [a, b]` for a string `x` and a list
literal: `is` tests object identity, and a string object is never the same
object as a freshly constructed list, so the expression is `False` for every
status value. -/
def py_is_str_list (_s : String) (_xs : List String) : Bool := false

/-- ASCII lower-casing of one character, as `str.lower()` acts on the
ASCII process and binary names involved. -/
def pyLowerChar (c : Char) : Char :=
  if 'A' ≤ c ∧ c ≤ 'Z' then Char.ofNat (c.toNat + 32) else c

/-- Embeds `str.lower()`. -/
def pyLower (s : String) : String := String.mk (s.data.map pyLowerChar)

/-- Embeds the inner `is_running_raiden` predicate of
`RaidenClient.get_process_id`: case-insensitive name equality, the
`status() is [STATUS_DEAD, STATUS_ZOMBIE]` test (see `py_is_str_list`),
and the `except psutil.ZombieProcess: return False` handler. -/
def is_running_raiden (binaryName : String) (p : ProcInfo) : Bool :=
  if p.raisesZombieError then false
  else
    let is_raiden := pyLower binaryName == pyLower p.name
    let is_dead := py_is_str_list p.status ["dead", "zombie"]
    is_raiden && !is_dead

/-- Embeds `RaidenClient.get_process_id`: filter the process table by
`is_running_raiden` and return the maximal pid, `None` when no process
matches (the `ValueError` of `max` over an empty sequence). -/
def get_process_id (binaryName : String) (procs : List ProcInfo) : Option Nat :=
  ((procs.filter (is_running_raiden binaryName)).map ProcInfo.pid).max?

/-- Modelled from the spec: the set-membership test of an OS status against
the set of dead-like statuses, the check the spec says the dead-or-zombie
classification must perform. -/
def statusDeadOrZombie (status : String) : Bool :=
  ["dead", "zombie"].contains status

/-- Embeds `RaidenClient.is_zombie`: falsy cached pid (None or 0) gives
`False`, otherwise the cached pid's status is compared against
`psutil.STATUS_ZOMBIE`; `statusOf` stands for `psutil.Process(pid).status()`. -/
def is_zombie (cached : Option Nat) (statusOf : Nat → String) : Bool :=
  match cached with
  | none => false
  | some pid => if pid = 0 then false else statusOf pid == "zombie"

/-- A zombie-status process whose name matches the binary name. -/
def zombieProc : ProcInfo := ⟨5, "raiden-1.0.0", "zombie", false⟩

/-! ## The readiness polling loop (`wait_for_web_ui_ready`)

The loop's interactions with the outside world are collected into an
environment of oracle answers indexed by outer iteration: the result of the
name-scan refresh (`running`), the zombie check of the refreshed cached pid
(`zombie`), the result of the j-th `check_status_api` call of the iteration
(`statusReady`, true exactly when the GET succeeded with body status
`"ready"`), and whether the raw TCP connect succeeds (`tcpOk`; a refused
connection and a `gaierror` both answer false).  The unbounded `while` loops
become a fuel-indexed interpreter; alongside the result it counts how many
`check_status_api` calls (status polls) were issued. -/

structure PollEnv where
  initiallyRunning : Bool
  running : Nat → Bool
  zombie : Nat → Bool
  statusReady : Nat → Nat → Bool
  tcpOk : Nat → Bool

/-- Outcome of the readiness wait: the normal return, the
`RaidenClientError` raised when the refreshed process is gone or zombie,
the `RuntimeError` raised when no process runs at call time, or fuel
exhaustion of the interpreter. -/
inductive WaitResult where
  | ready
  | procTerminated
  | notRunning
  | outOfFuel
deriving DecidableEq

/-- Embeds the inner `while not self.check_status_api(...)` loop of
iteration `i`, polling from index `j` with the given fuel; returns the
total number of status-API calls made when a ready status is observed. -/
def innerStatus (env : PollEnv) (i : Nat) : Nat → Nat → Option Nat
  | _, 0 => none
  | j, fuel + 1 =>
    if env.statusReady i j then some (j + 1) else innerStatus env i (j + 1) fuel

/-- Embeds the outer `while True` loop of `wait_for_web_ui_ready`, starting
at iteration `i`: refresh the process handle and raise if it is gone or the
cached process is zombie; poll the status endpoint until ready; then attempt
one TCP connect — success returns, failure sleeps and re-enters the outer
loop.  Returns the result together with the number of status-API calls. -/
def waitLoop (env : PollEnv) : Nat → Nat → WaitResult × Nat
  | _, 0 => (.outOfFuel, 0)
  | i, fuel + 1 =>
    if env.running i = false ∨ env.zombie i = true then (.procTerminated, 0)
    else
      match innerStatus env i 0 fuel with
      | none => (.outOfFuel, 0)
      | some c =>
        if env.tcpOk i then (.ready, c)
        else
          let r := waitLoop env (i + 1) fuel
          (r.1, c + r.2)

/-- Embeds `RaidenClient.wait_for_web_ui_ready`: the initial
`if not self.is_running: raise RuntimeError` guard, then the polling loop. -/
def wait_for_web_ui_ready (env : PollEnv) (fuel : Nat) : WaitResult × Nat :=
  if env.initiallyRunning = false then (.notRunning, 0) else waitLoop env 0 fuel

/-- Environment in which the process is alive only during iteration 0, every
status poll reports ready, and every TCP connect fails: the process dies
after a ready status was observed but before the port check succeeded. -/
def envDeadAfterOne : PollEnv where
  initiallyRunning := true
  running := fun i => decide (i = 0)
  zombie := fun _ => false
  statusReady := fun _ _ => true
  tcpOk := fun _ => false

/-- Environment in which every status poll reports ready and every TCP
connect succeeds. -/
def envTcpReady : PollEnv where
  initiallyRunning := true
  running := fun _ => true
  zombie := fun _ => false
  statusReady := fun _ _ => true
  tcpOk := fun _ => true

/-- Environment for the status-polling re-entry scenario: in iteration 0 the
very first status poll reports ready but the TCP connect is refused; from
iteration 1 on the status endpoint answers ready only at the second poll of
the iteration and the TCP connect succeeds. -/
def envRecheck : PollEnv where
  initiallyRunning := true
  running := fun _ => true
  zombie := fun _ => false
  statusReady := fun i j => decide ((i = 0 ∧ j = 0) ∨ (1 ≤ i ∧ j = 1))
  tcpOk := fun i => decide (1 ≤ i)

/-! ## The installer (`install`, `_extract_zip`, `_extract_gzip`) -/

/-- A downloaded archive, already parsed: a zip holds the byte payloads of
its members in order; a gzip-compressed tar holds its members in order, a
member being `some bytes` for a regular file and `none` for a member
`tarfile.extractfile` answers `None` on (directories, links). -/
inductive Archive where
  | zip (members : List (List Nat))
  | tarGz (members : List (Option (List Nat)))
deriving DecidableEq

/-- Outcome of running the selected extraction action on a downloaded
archive. `wrongKind` stands for the parse error raised when the data is not
an archive of the expected kind (raised before the destination is opened);
`noMembers` for the `IndexError` on an empty member list (raised after the
destination was opened for writing and truncated); `payload` carries the
bytes written on success. -/
inductive ExtractOutcome where
  | wrongKind
  | noMembers
  | payload (bytes : List Nat)
deriving DecidableEq

/-- Embeds `RaidenClient._extract_zip`: writes the bytes of the first member
of the zip (`zipped.read(zipped.filelist[0])`). -/
def extract_zip : Archive → ExtractOutcome
  | .zip [] => .noMembers
  | .zip (m :: _) => .payload m
  | .tarGz _ => .wrongKind

/-- Embeds `RaidenClient._extract_gzip`: writes the bytes of the first tar
member (`tar.extractfile(tar.getmembers()[0])`); when `extractfile` answers
`None` nothing is written into the freshly truncated file, leaving it empty. -/
def extract_gzip : Archive → ExtractOutcome
  | .tarGz [] => .noMembers
  | .tarGz (some b :: _) => .payload b
  | .tarGz (none :: _) => .payload []
  | .zip _ => .wrongKind

/-- First member's byte payload of an archive, when the archive has a first
member that carries bytes. -/
def firstMemberBytes : Archive → Option (List Nat)
  | .zip (m :: _) => some m
  | .tarGz (some b :: _) => some b
  | _ => none

/-- Embeds `str.endswith(suffix)`. -/
def pyEndsWith (s suffix : String) : Bool :=
  s.data.drop (s.data.length - suffix.data.length) == suffix.data

/-- Whether the archive kind agrees with the URL-suffix dispatch of
`install`: a `gz`-suffixed URL announces a gzip-compressed tar, anything
else a zip. -/
def matchesUrlKind (url : String) (a : Archive) : Bool :=
  match a with
  | .tarGz _ => pyEndsWith url "gz"
  | .zip _ => !(pyEndsWith url "gz")

/-- Filesystem state: file contents, permission modes and directories, all
keyed by path. -/
structure FSState where
  files : List (String × List Nat)
  modes : List (String × Nat)
  dirs : List String
deriving DecidableEq

/-- Embeds `Path.exists` of the destination binary path. -/
def fileExists (fs : FSState) (p : String) : Bool := (fs.files.lookup p).isSome

/-- Embeds `Path.mkdir(parents=True, exist_ok=True)`. -/
def mkdirP (fs : FSState) (d : String) : FSState :=
  { fs with dirs := if fs.dirs.contains d then fs.dirs else d :: fs.dirs }

/-- Embeds opening a path with mode `"wb"` and writing `content`. -/
def writeFile (fs : FSState) (p : String) (content : List Nat) : FSState :=
  { fs with files := (p, content) :: fs.files.eraseP (fun kv => kv.1 == p) }

/-- Embeds `os.chmod`. -/
def chmodFS (fs : FSState) (p : String) (mode : Nat) : FSState :=
  { fs with modes := (p, mode) :: fs.modes.eraseP (fun kv => kv.1 == p) }

/-- Errors `install` can raise: the `RuntimeError` on an existing
destination without `force`, the `requests` error propagated by
`raise_for_status`, and archive parse or extraction failures. -/
inductive InstallError where
  | alreadyInstalled
  | downloadError
  | extractionError
deriving DecidableEq

/-- Inputs of one `install` call: the destination binary path
(`self.install_path`), the binary folder (`BINARY_FOLDER_PATH`), the
download URL, and the response body of `requests.get(download_url)` —
`none` when the transport fails or `raise_for_status` raises, otherwise the
downloaded archive. -/
structure InstallSpec where
  installPath : String
  binaryFolder : String
  downloadUrl : String
  download : Option Archive
deriving DecidableEq

/-- Embeds `RaidenClient.install(force)` statement by statement: the
existence guard raises before anything touches the filesystem; then the
binary folder is created, the archive downloaded, the extraction action
selected by the URL suffix (`download_url.endswith("gz")`), its payload
written to the destination, and the destination chmodded to `0o770`. -/
def install (c : InstallSpec) (force : Bool) (fs : FSState) :
    Option InstallError × FSState :=
  if fileExists fs c.installPath && !force then (some .alreadyInstalled, fs)
  else
    let fs1 := mkdirP fs c.binaryFolder
    match c.download with
    | none => (some .downloadError, fs1)
    | some archive =>
      let outcome :=
        if pyEndsWith c.downloadUrl "gz" then extract_gzip archive else extract_zip archive
      match outcome with
      | .wrongKind => (some .extractionError, fs1)
      | .noMembers => (some .extractionError, writeFile fs1 c.installPath [])
      | .payload bytes =>
        (none, chmodFS (writeFile fs1 c.installPath bytes) c.installPath 0o770)

/-- A concrete install request whose download is a tar archive with one
regular-file member. -/
def cfgTar : InstallSpec :=
  ⟨"bin/raiden-1.0.0", "bin", "https://example.com/raiden-v1.0.0-linux-x86_64.tar.gz",
    some (Archive.tarGz [some [1, 2, 3]])⟩

/-- The empty filesystem. -/
def fsEmpty : FSState := ⟨[], [], []⟩

/-- A filesystem in which the destination binary already exists with known
bytes. -/
def fsWithBinary : FSState := ⟨[("bin/raiden-1.0.0", [9, 9])], [("bin/raiden-1.0.0", 7)], ["bin"]⟩

/-! ## Release listing adapters
(`RaidenClient._make_releases`, `RaidenNightly._make_releases`)

The filename patterns are `FILE_NAME_PATTERN + "-" + FILE_NAME_SUFFIX` with
`FILE_NAME_SUFFIX = "linux-x86_64.tar.gz"` (the Linux build of the source;
the two unescaped dots of the suffix are regex wildcards).  The digit groups
are separated by characters no digit can match, so the greedy `\d+` groups
never backtrack and a direct left-to-right parser is faithful; the greedy
`(?P<extra>.*)` group backtracks to the largest split whose remainder still
matches the suffix pattern. -/

/-- Matches a pattern character list in which `'.'` is the regex wildcard
(the unescaped dots of `FILE_NAME_SUFFIX`), returning the remainder. -/
def matchWild : List Char → List Char → Option (List Char)
  | [], s => some s
  | _ :: _, [] => none
  | p :: ps, c :: cs => if p = '.' ∨ p = c then matchWild ps cs else none

/-- The suffix part `-linux-x86_64.tar.gz` of every file pattern. -/
def suffixChars : List Char := "-linux-x86_64.tar.gz".data

/-- Embeds `(?P<extra>.*)` followed by the suffix pattern: the largest split
of the input whose remainder matches the suffix pattern wins (greedy with
backtracking); returns the characters captured by `extra`. -/
def greedySplit (pat : List Char) (s : List Char) : Option (List Char) :=
  (List.range (s.length + 1)).reverse.findSome? fun i =>
    match matchWild pat (s.drop i) with
    | some _ => some (s.take i)
    | none => none

/-- Embeds `\d+` as one parsing step: fails unless at least one digit is
present, consumes the maximal digit run. -/
def takeDigits1 (s : List Char) : Option (List Char × List Char) :=
  let d := takeDigits s
  if d.1.isEmpty then none else some d

/-- The named groups of `RaidenNightly.FILE_NAME_PATTERN`. -/
structure NightlyGroups where
  year : List Char
  month : List Char
  day : List Char
  hour : List Char
  minute : List Char
  second : List Char
  major : List Char
  minor : List Char
  revision : List Char
  extra : List Char
deriving DecidableEq

/-- Parses an alternating sequence of digit groups and literal separators:
for each separator in the list, one `\d+` group followed by that literal.
An empty separator ends a group without consuming anything. -/
def parseSeq : List (List Char) → List Char → Option (List (List Char) × List Char)
  | [], s => some ([], s)
  | sep :: seps, s =>
    match takeDigits1 s with
    | none => none
    | some (d, s1) =>
      match matchExact sep s1 with
      | none => none
      | some s2 =>
        match parseSeq seps s2 with
        | none => none
        | some (ds, s3) => some (d :: ds, s3)

/-- The separators between the nine digit groups of the nightly pattern:
`year-month-dayThour-minute-second-vmajor.minor.revision`. -/
def nightlySeps : List (List Char) :=
  [['-'], ['-'], ['T'], ['-'], ['-'], "-v".data, ['.'], ['.'], []]

/-- Embeds one anchored attempt of the nightly file pattern
`raiden-nightly-(\d+)-(\d+)-(\d+)T(\d+)-(\d+)-(\d+)-v(\d+)\.(\d+)\.(\d+)(.*)-SUFFIX`
at the start of the input. -/
def parseNightlyAt (s : List Char) : Option NightlyGroups :=
  match matchExact "raiden-nightly-".data s with
  | none => none
  | some s0 =>
    match parseSeq nightlySeps s0 with
    | some ([y, mo, d, h, mi, sec, ma, mn, rv], s1) =>
      match greedySplit suffixChars s1 with
      | some extra => some ⟨y, mo, d, h, mi, sec, ma, mn, rv, extra⟩
      | none => none
    | _ => none

/-- Embeds `re.search` of the nightly file pattern over an object-storage
key: leftmost start position wins. -/
def parseNightlySearch (s : List Char) : Option NightlyGroups :=
  match parseNightlyAt s with
  | some g => some g
  | none =>
    match s with
    | [] => none
    | _ :: rest => parseNightlySearch rest

/-- Embeds Python `int()` of a captured digit group. -/
def charsToNat (ds : List Char) : Nat :=
  ds.foldl (fun acc c => acc * 10 + (c.toNat - '0'.toNat)) 0

/-- Gregorian leap-year rule, as `datetime` uses it. -/
def isLeapYear (y : Nat) : Bool :=
  (y % 4 = 0 && y % 100 ≠ 0) || y % 400 = 0

/-- Number of days of a month, as `datetime` uses it. -/
def daysInMonth (y m : Nat) : Nat :=
  if m = 2 then (if isLeapYear y then 29 else 28)
  else if m = 4 ∨ m = 6 ∨ m = 9 ∨ m = 11 then 30
  else 31

/-- Embeds the argument validation of the `datetime(...)` constructor:
outside these bounds the constructor raises `ValueError`. -/
def validDatetime (y mo d h mi s : Nat) : Bool :=
  1 ≤ y && y ≤ 9999 && 1 ≤ mo && mo ≤ 12 && 1 ≤ d && d ≤ daysInMonth y mo
    && h ≤ 23 && mi ≤ 59 && s ≤ 59

/-- Whether the timestamp groups of a matched nightly key form a valid
`datetime`. -/
def validGroups (g : NightlyGroups) : Bool :=
  validDatetime (charsToNat g.year) (charsToNat g.month) (charsToNat g.day)
    (charsToNat g.hour) (charsToNat g.minute) (charsToNat g.second)

/-- Version identity plus timestamp of one nightly release, the data
`RaidenNightly._get_release_data` returns. -/
structure NightlyRelease where
  versionData : VersionData
  year : Nat
  month : Nat
  day : Nat
  hour : Nat
  minute : Nat
  second : Nat
deriving DecidableEq

/-- Builds the `(VersionData, datetime)` pair from matched nightly groups. -/
def nightlyReleaseOfGroups (g : NightlyGroups) : NightlyRelease :=
  ⟨⟨String.mk g.major, String.mk g.minor, String.mk g.revision, some (String.mk g.extra)⟩,
    charsToNat g.year, charsToNat g.month, charsToNat g.day,
    charsToNat g.hour, charsToNat g.minute, charsToNat g.second⟩

/-- Result of listing the nightly channel: the list of releases, or the
`ValueError` the `datetime(...)` constructor raises out of the loop. -/
inductive ListingResult where
  | ok (releases : List NightlyRelease)
  | valueError
deriving DecidableEq

/-- Embeds `RaidenNightly._make_releases` over the sequence of object keys
of the bucket listing: keys that do not match the pattern are skipped; a
matching key is turned into a release, and the `datetime(...)` call raises
`ValueError` on invalid timestamp fields, aborting the whole listing. -/
def nightly_make_releases : List String → ListingResult
  | [] => .ok []
  | k :: rest =>
    match parseNightlySearch k.data with
    | none => nightly_make_releases rest
    | some g =>
      if validGroups g then
        match nightly_make_releases rest with
        | .valueError => .valueError
        | .ok tail => .ok (nightlyReleaseOfGroups g :: tail)
      else .valueError

/-- The separators between the three digit groups of the stable and testnet
patterns: `major.minor.revision`. -/
def stableSeps : List (List Char) := [['.'], ['.'], []]

/-- Embeds one anchored attempt (`re.match`) of the stable file pattern
`raiden-v(\d+)\.(\d+)\.(\d+)-SUFFIX` at the start of an asset name. -/
def parseStableAt (s : List Char) : Option (List Char × List Char × List Char) :=
  match matchExact "raiden-v".data s with
  | none => none
  | some s0 =>
    match parseSeq stableSeps s0 with
    | some ([ma, mn, rv], s1) =>
      match matchWild suffixChars s1 with
      | some _ => some (ma, mn, rv)
      | none => none
    | _ => none

/-- Embeds `RaidenRelease._get_version_data`: the stable pattern has no
`extra` group, so `groups.get("extra")` is `None`. -/
def stable_get_version_data (name : String) : Option VersionData :=
  (parseStableAt name.data).map fun g =>
    ⟨String.mk g.1, String.mk g.2.1, String.mk g.2.2, none⟩

/-- Embeds one anchored attempt (`re.match`) of the testnet file pattern
`raiden-v(\d+)\.(\d+)\.(\d+)(?P<extra>.*)-SUFFIX` at the start of an asset
name. -/
def parseTestnetAt (s : List Char) :
    Option (List Char × List Char × List Char × List Char) :=
  match matchExact "raiden-v".data s with
  | none => none
  | some s0 =>
    match parseSeq stableSeps s0 with
    | some ([ma, mn, rv], s1) =>
      match greedySplit suffixChars s1 with
      | some extra => some (ma, mn, rv, extra)
      | none => none
    | _ => none

/-- Embeds `RaidenTestnetRelease._get_version_data`. -/
def testnet_get_version_data (name : String) : Option VersionData :=
  (parseTestnetAt name.data).map fun g =>
    ⟨String.mk g.1, String.mk g.2.1, String.mk g.2.2.1, some (String.mk g.2.2.2)⟩

/-- One asset record of a GitHub release record: `asset_data["name"]` and
`asset_data.get("browser_download_url")`. -/
structure AssetData where
  name : String
  browser_download_url : Option String
deriving DecidableEq

/-- One GitHub release record: `release_data.get("assets", [])`. -/
structure ReleaseData where
  assets : List AssetData
deriving DecidableEq

/-- Embeds `RaidenClient._make_release`: the first asset whose name the
channel's pattern accepts becomes the release (download URL and version
data); a record with no matching asset yields `None`. -/
def make_release (getVersion : String → Option VersionData) (rd : ReleaseData) :
    Option (Option String × VersionData) :=
  rd.assets.findSome? fun a => (getVersion a.name).map fun v => (a.browser_download_url, v)

/-- Embeds `RaidenClient._make_releases`: build a release per record and
drop the records that produced none. -/
def make_releases (getVersion : String → Option VersionData) (rds : List ReleaseData) :
    List (Option String × VersionData) :=
  (rds.map (make_release getVersion)).filterMap id

/-- A nightly key whose pattern match succeeds and whose timestamp is a
valid datetime. -/
def nightlyGoodKey : String :=
  "raiden-nightly-2020-12-31T23-59-58-v1.2.3rc1-linux-x86_64.tar.gz"

/-- The groups the nightly pattern captures on `nightlyGoodKey`. -/
def nightlyGoodGroups : NightlyGroups :=
  ⟨"2020".data, "12".data, "31".data, "23".data, "59".data, "58".data,
    "1".data, "2".data, "3".data, "rc1".data⟩

/-- A key that matches the nightly pattern but encodes month `13`, an
invalid `datetime`. -/
def nightlyBadKey : String :=
  "raiden-nightly-2020-13-01T10-20-30-v1.2.3-linux-x86_64.tar.gz"

/-- A release record whose only asset name matches no channel pattern. -/
def rdNoMatch : ReleaseData := ⟨[⟨"README.md", none⟩]⟩

/-! ## Shape of parsed modifiers -/

theorem takeDigits_all (s : List Char) : (takeDigits s).1.all Char.isDigit = true := by
  induction s with
  | nil => rfl
  | cons c rest ih =>
    simp only [takeDigits]
    cases hc : c.isDigit with
    | true => simp [hc, ih]
    | false => simp [hc]

theorem tryNum_shape (s : List Char) (n : String) (h : tryNum s = some n) :
    n ≠ "" ∧ n.data.all Char.isDigit = true := by
  unfold tryNum at h
  by_cases he : ((takeDigits (dropDash s)).1).isEmpty = true
  · rw [if_pos he] at h; exact absurd h (by simp)
  · rw [if_neg he] at h
    have hn : n = String.mk (takeDigits (dropDash s)).1 := by
      cases h; rfl
    subst hn
    refine ⟨?_, takeDigits_all _⟩
    intro hcon
    apply he
    have hd : (takeDigits (dropDash s)).1 = [] := by
      have := congrArg String.data hcon
      simpa using this
    rw [hd]; rfl

theorem tryAlt_shape (alt s : List Char) (n : String) (h : tryAlt alt s = some n) :
    n ≠ "" ∧ n.data.all Char.isDigit = true := by
  unfold tryAlt at h
  cases hm : matchExact alt s with
  | none => rw [hm] at h; exact absurd h (by simp)
  | some rest => rw [hm] at h; exact tryNum_shape rest n h

theorem matchModAt_shape (s : List Char) (r n : String)
    (h : matchModAt s = some (r, n)) :
    (r = "a" ∨ r = "alpha" ∨ r = "b" ∨ r = "beta" ∨ r = "rc")
      ∧ n ≠ "" ∧ n.data.all Char.isDigit = true := by
  unfold matchModAt at h
  cases h1 : tryAlt "a".data s with
  | some m =>
    simp only [h1, Option.some.injEq, Prod.mk.injEq] at h
    obtain ⟨hr, hn⟩ := h
    subst hr; subst hn
    exact ⟨Or.inl rfl, tryAlt_shape _ _ _ h1⟩
  | none =>
    simp only [h1] at h
    cases h2 : tryAlt "alpha".data s with
    | some m =>
      simp only [h2, Option.some.injEq, Prod.mk.injEq] at h
      obtain ⟨hr, hn⟩ := h
      subst hr; subst hn
      exact ⟨Or.inr (Or.inl rfl), tryAlt_shape _ _ _ h2⟩
    | none =>
      simp only [h2] at h
      cases h3 : tryAlt "b".data s with
      | some m =>
        simp only [h3, Option.some.injEq, Prod.mk.injEq] at h
        obtain ⟨hr, hn⟩ := h
        subst hr; subst hn
        exact ⟨Or.inr (Or.inr (Or.inl rfl)), tryAlt_shape _ _ _ h3⟩
      | none =>
        simp only [h3] at h
        cases h4 : tryAlt "beta".data s with
        | some m =>
          simp only [h4, Option.some.injEq, Prod.mk.injEq] at h
          obtain ⟨hr, hn⟩ := h
          subst hr; subst hn
          exact ⟨Or.inr (Or.inr (Or.inr (Or.inl rfl))), tryAlt_shape _ _ _ h4⟩
        | none =>
          simp only [h4] at h
          cases h5 : tryAlt "rc".data s with
          | some m =>
            simp only [h5, Option.some.injEq, Prod.mk.injEq] at h
            obtain ⟨hr, hn⟩ := h
            subst hr; subst hn
            exact ⟨Or.inr (Or.inr (Or.inr (Or.inr rfl))), tryAlt_shape _ _ _ h5⟩
          | none =>
            simp only [h5] at h
            exact Option.noConfusion h

theorem searchMod_shape (s : List Char) (r n : String)
    (h : searchMod s = some (r, n)) :
    (r = "a" ∨ r = "alpha" ∨ r = "b" ∨ r = "beta" ∨ r = "rc")
      ∧ n ≠ "" ∧ n.data.all Char.isDigit = true := by
  induction s with
  | nil => simp [searchMod] at h
  | cons c rest ih =>
    rw [searchMod] at h
    cases hm : matchModAt (c :: rest) with
    | some rn =>
      simp only [hm, Option.some.injEq] at h
      subst h
      exact matchModAt_shape _ _ _ hm
    | none =>
      simp only [hm] at h
      exact ih h

theorem extract_shape (o : Option String) (k n : String)
    (h : extract_version_modifier o = some (k, n)) :
    (k = "alpha" ∨ k = "beta" ∨ k = "rc")
      ∧ n ≠ "" ∧ n.data.all Char.isDigit = true := by
  cases o with
  | none => simp [extract_version_modifier] at h
  | some s =>
    by_cases hs : s = ""
    · simp [extract_version_modifier, hs] at h
    · simp only [extract_version_modifier, if_neg hs] at h
      cases hsm : searchMod s.data with
      | none => rw [hsm] at h; exact absurd h (by simp)
      | some rn =>
        rw [hsm] at h
        simp only [Option.map_some', Option.some.injEq, Prod.mk.injEq] at h
        obtain ⟨hk, hn⟩ := h
        obtain ⟨hr, hnum⟩ := searchMod_shape s.data rn.1 rn.2 (by rw [hsm])
        subst hk; subst hn
        refine ⟨?_, hnum⟩
        rcases hr with h | h | h | h | h <;> rw [h] <;> simp [normalizeModifier]

theorem version_modifier_cases (v : VersionData) :
    version_modifier v = none ∨ version_modifier v = some "alpha"
      ∨ version_modifier v = some "beta" ∨ version_modifier v = some "rc" := by
  cases hext : extract_version_modifier v.extra with
  | none => left; simp [version_modifier, hext]
  | some kn =>
    obtain ⟨k, n⟩ := kn
    obtain ⟨hk, _, _⟩ := extract_shape v.extra k n hext
    right
    rcases hk with h | h | h
    · exact Or.inl (by simp [version_modifier, hext, h])
    · exact Or.inr (Or.inl (by simp [version_modifier, hext, h]))
    · exact Or.inr (Or.inr (by simp [version_modifier, hext, h]))

/-- Claim C10: for every input string, `extract_version_modifier` either
returns no modifier or returns a modifier whose kind is `alpha`, `beta` or
`rc` paired with a nonempty all-digit number — the kind `dev` of the
precedence list is never produced — and a recognized modifier token without
a following digit group (such as a bare `beta` or `rc`) yields no modifier. -/
theorem extract_modifier_kinds :
    (∀ s : String, extract_version_modifier (some s) = none
      ∨ ∃ k n, extract_version_modifier (some s) = some (k, n)
          ∧ (k = "alpha" ∨ k = "beta" ∨ k = "rc")
          ∧ n ≠ "" ∧ n.data.all Char.isDigit = true)
    ∧ extract_version_modifier (some "beta") = none
    ∧ extract_version_modifier (some "rc") = none := by
  refine ⟨fun s => ?_, by decide, by decide⟩
  cases hext : extract_version_modifier (some s) with
  | none => exact Or.inl rfl
  | some kn =>
    obtain ⟨k, n⟩ := kn
    obtain ⟨hk, hne, hdig⟩ := extract_shape (some s) k n hext
    exact Or.inr ⟨k, n, rfl, hk, hne, hdig⟩

/-- Claim C1 counterexample: on the stable channel pair `v1.2.0` /
`v1.2.0rc1` the code orders the release-candidate ABOVE the plain release:
`__gt__` denies `v1.2.0 > v1.2.0rc1` and affirms `v1.2.0rc1 > v1.2.0`,
because `order_version_modifier` ranks a missing modifier at `-1`, below
`dev`/`alpha`/`beta`/`rc`, not above them. -/
theorem stable_not_greater_than_rc :
    client_gt vStable vRc1 = false ∧ client_gt vRc1 vStable = true := by decide

/-- Claim C1 (amended): for version identifiers with equal
(major, minor, revision) and distinct modifier kinds, `__gt__` orders them
by the fixed precedence `none < dev < alpha < beta < rc` — the release with
NO modifier ranks lowest (its `order_version_modifier` is `-1`), so a plain
release compares LESS, not greater, than an `rc` release of the same
numeric version. -/
theorem gt_ranks_modifiers_by_precedence (a b : VersionData)
    (h1 : a.major = b.major) (h2 : a.minor = b.minor) (h3 : a.revision = b.revision)
    (h4 : version_modifier a ≠ version_modifier b) :
    client_gt a b = true ↔
      modifier_rank (version_modifier b) < modifier_rank (version_modifier a) := by
  unfold client_gt
  rw [h1, h2, h3]
  simp only [ne_eq, not_true_eq_false, if_false, h4, not_false_eq_true, if_true,
    decide_eq_true_eq]
  rcases version_modifier_cases a with ha | ha | ha | ha <;>
    rcases version_modifier_cases b with hb | hb | hb | hb <;>
    rw [ha, hb] at h4 ⊢ <;>
    first
      | exact absurd rfl h4
      | decide

/-- Witness for the amended claim C1 at a concrete pair: `v1.2.0a1` ranks
above `v1.2.0` under `__gt__`. -/
theorem gt_ranks_modifiers_witness : client_gt vAlpha1 vStable = true :=
  (gt_ranks_modifiers_by_precedence vAlpha1 vStable rfl rfl rfl (by decide)).mpr
    (by decide)

/-- Claim C2: evaluating the two comparison directions at the tied pair
`v1.2.0a1` / `v1.2.0rc1` shows them disagreeing: `__gt__` affirms
`v1.2.0rc1 > v1.2.0a1` while `__lt__` denies `v1.2.0a1 < v1.2.0rc1` — the
`__lt__` tie-break feeds `other.version_modifier_number` (a digit string,
ranked `-1`) into `order_version_modifier` where `__gt__` feeds
`other.version_modifier`, so on a modifier tie-break `__lt__` always
answers false. -/
theorem lt_gt_disagree_on_modifier_tie :
    client_gt vRc1 vAlpha1 = true ∧ client_lt vAlpha1 vRc1 = false := by decide

/-- Claim C3: the major components are compared as text, not numerically:
with equal minor and revision, `__lt__` affirms that major `10` is LESS
than major `9` and `__gt__` denies that it is greater, because Python
compares the stored digit strings lexicographically. -/
theorem major_compared_as_text :
    client_lt vTen vNine = true ∧ client_gt vTen vNine = false := by decide

/-! ## Readiness-wait theorems -/

theorem innerStatus_finds (env : PollEnv) (i : Nat) :
    ∀ t j fuel, env.statusReady i (j + t) = true → t + 1 ≤ fuel →
      ∃ c, innerStatus env i j fuel = some c := by
  intro t
  induction t with
  | zero =>
    intro j fuel h hf
    obtain ⟨f, rfl⟩ : ∃ f, fuel = f + 1 := ⟨fuel - 1, by omega⟩
    refine ⟨j + 1, ?_⟩
    have hj : env.statusReady i j = true := by simpa using h
    simp [innerStatus, hj]
  | succ t ih =>
    intro j fuel h hf
    obtain ⟨f, rfl⟩ : ∃ f, fuel = f + 1 := ⟨fuel - 1, by omega⟩
    cases hj : env.statusReady i j with
    | true => exact ⟨j + 1, by simp [innerStatus, hj]⟩
    | false =>
      have h' : env.statusReady i ((j + 1) + t) = true := by
        have he : (j + 1) + t = j + (t + 1) := by omega
        rw [he]; exact h
      obtain ⟨c, hc⟩ := ih (j + 1) f h' (by omega)
      exact ⟨c, by simp [innerStatus, hj, hc]⟩

theorem waitLoop_procTerminated (env : PollEnv) (B : Nat) :
    ∀ d i fuel,
      (∀ m, m < d → env.running (i + m) = true ∧ env.zombie (i + m) = false) →
      (∀ m, m < d → ∃ j, j ≤ B ∧ env.statusReady (i + m) j = true) →
      (∀ m, m < d → env.tcpOk (i + m) = false) →
      (env.running (i + d) = false ∨ env.zombie (i + d) = true) →
      d + B + 2 ≤ fuel →
      (waitLoop env i fuel).1 = WaitResult.procTerminated := by
  intro d
  induction d with
  | zero =>
    intro i fuel _ _ _ hdead hf
    obtain ⟨f, rfl⟩ : ∃ f, fuel = f + 1 := ⟨fuel - 1, by omega⟩
    have hg : env.running i = false ∨ env.zombie i = true := by simpa using hdead
    simp only [waitLoop]
    rw [if_pos hg]
  | succ d ih =>
    intro i fuel halive hready htcp hdead hf
    obtain ⟨f, rfl⟩ : ∃ f, fuel = f + 1 := ⟨fuel - 1, by omega⟩
    obtain ⟨hrun, hzom⟩ : env.running i = true ∧ env.zombie i = false := by
      simpa using halive 0 (by omega)
    have hg : ¬(env.running i = false ∨ env.zombie i = true) := by
      simp [hrun, hzom]
    obtain ⟨j, hjB, hjr⟩ := hready 0 (by omega)
    have hjr' : env.statusReady i (0 + j) = true := by simpa using hjr
    obtain ⟨c, hc⟩ := innerStatus_finds env i j 0 f hjr' (by omega)
    have ht : env.tcpOk i = false := by simpa using htcp 0 (by omega)
    simp only [waitLoop]
    rw [if_neg hg, hc]
    rw [ht]
    simp only [Bool.false_eq_true, if_false]
    refine (ih (i + 1) f ?_ ?_ ?_ ?_ (by omega))
    · intro m hm
      have := halive (m + 1) (by omega)
      rwa [show i + (m + 1) = (i + 1) + m by omega] at this
    · intro m hm
      have := hready (m + 1) (by omega)
      rwa [show i + (m + 1) = (i + 1) + m by omega] at this
    · intro m hm
      have := htcp (m + 1) (by omega)
      rwa [show i + (m + 1) = (i + 1) + m by omega] at this
    · rwa [show i + (d + 1) = (i + 1) + d by omega] at hdead

/-- Claim C4: whenever the refreshed process handle is unresolvable or the
cached process is zombie at some outer iteration `k` of
`wait_for_web_ui_ready` — while every earlier iteration found the process
alive, eventually observed a ready status (within `B` polls) and then
failed its TCP connect — the wait raises the client error (ProcessTerminated)
instead of continuing to poll.  This covers exactly the case in which a
ready status body was already observed but the port check had not yet
succeeded when the process died. -/
theorem wait_fails_on_process_death (env : PollEnv) (k B : Nat)
    (hinit : env.initiallyRunning = true)
    (halive : ∀ i, i < k → env.running i = true ∧ env.zombie i = false)
    (hready : ∀ i, i < k → ∃ j, j ≤ B ∧ env.statusReady i j = true)
    (htcp : ∀ i, i < k → env.tcpOk i = false)
    (hdead : env.running k = false ∨ env.zombie k = true) :
    (wait_for_web_ui_ready env (k + B + 2)).1 = WaitResult.procTerminated := by
  unfold wait_for_web_ui_ready
  rw [hinit]
  simp only [Bool.true_eq_false, if_false]
  refine waitLoop_procTerminated env B k 0 (k + B + 2) ?_ ?_ ?_ ?_ (by omega)
  · intro m hm; simpa using halive m hm
  · intro m hm; simpa using hready m hm
  · intro m hm; simpa using htcp m hm
  · simpa using hdead

/-- Witness for claim C4: in `envDeadAfterOne` the process is alive in
iteration 0, the first status poll reports ready, the TCP connect fails,
and at iteration 1 the process is gone — the wait ends in the
process-terminated error. -/
theorem wait_fails_on_process_death_witness :
    (wait_for_web_ui_ready envDeadAfterOne 3).1 = WaitResult.procTerminated :=
  wait_fails_on_process_death envDeadAfterOne 1 0 rfl
    (fun i hi => by
      have h0 : i = 0 := by omega
      subst h0
      exact ⟨rfl, rfl⟩)
    (fun i _ => ⟨0, Nat.le_refl 0, rfl⟩)
    (fun i _ => rfl)
    (Or.inl rfl)

/-- Claim C5 counterexample: in `envRecheck` the status phase of iteration 0
ends with the very first status poll (it reports ready) and the TCP connect
is then refused; were the connect retried alone, no further status poll
would occur and the total status-API call count would stay at 1.  The run
instead performs THREE status-API calls before returning ready: after the
refused connect the loop re-enters the outer iteration and polls the status
endpoint again (twice, since in iteration 1 the first poll is not ready)
before its successful connect. -/
theorem status_polling_reentered_after_ready :
    wait_for_web_ui_ready envRecheck 10 = (WaitResult.ready, 3) := by decide

/-- Claim C5 (amended): once a status poll reports ready, one TCP connect is
attempted; a successful connect returns Ready, but a failed connect waits
and re-enters the OUTER loop — refreshing the process handle and polling
the status endpoint again — rather than retrying only the connect. -/
theorem tcp_failure_reenters_outer_loop (env : PollEnv) (i fuel : Nat)
    (hrun : env.running i = true) (hzom : env.zombie i = false)
    (hready0 : env.statusReady i 0 = true) (hf : 1 ≤ fuel) :
    (env.tcpOk i = true → (waitLoop env i (fuel + 1)).1 = WaitResult.ready) ∧
    (env.tcpOk i = false →
      (waitLoop env i (fuel + 1)).1 = (waitLoop env (i + 1) fuel).1) := by
  have hg : ¬(env.running i = false ∨ env.zombie i = true) := by
    simp [hrun, hzom]
  obtain ⟨f, rfl⟩ : ∃ f, fuel = f + 1 := ⟨fuel - 1, by omega⟩
  have hc : innerStatus env i 0 (f + 1) = some 1 := by
    simp [innerStatus, hready0]
  constructor
  · intro ht
    simp only [waitLoop]
    rw [if_neg hg, hc, ht]
    simp
  · intro ht
    simp only [waitLoop]
    rw [if_neg hg, hc, ht]
    simp

/-- Witness for the amended claim C5: in `envTcpReady` a ready status is
followed by a successful connect and the wait returns Ready, and in
`envDeadAfterOne` the refused connect hands control back to the next outer
iteration of the loop. -/
theorem tcp_failure_reenters_witness :
    (waitLoop envTcpReady 0 2).1 = WaitResult.ready ∧
    (waitLoop envDeadAfterOne 0 2).1 = (waitLoop envDeadAfterOne 1 1).1 :=
  ⟨(tcp_failure_reenters_outer_loop envTcpReady 0 1 rfl rfl rfl (by omega)).1 rfl,
    (tcp_failure_reenters_outer_loop envDeadAfterOne 0 1 rfl rfl rfl (by omega)).2 rfl⟩

/-! ## Process classification and installer theorems -/

/-- Claim C6: the dead-or-zombie test of `get_process_id` is written
`process.status() is [psutil.STATUS_DEAD, psutil.STATUS_ZOMBIE]` — object
identity of a string against a fresh list literal, which is False for every
status — instead of the membership test against the set of dead-like
statuses; consequently a name-matching process whose OS status is `zombie`
IS counted as running and returned by `get_process_id`, although the
intended membership test `statusDeadOrZombie` classifies it as dead. -/
theorem zombie_process_counted_as_running :
    is_running_raiden "raiden-1.0.0" zombieProc = true
      ∧ get_process_id "raiden-1.0.0" [zombieProc] = some 5
      ∧ statusDeadOrZombie zombieProc.status = true := by decide

/-- Claim C7: when the destination binary path already exists and `force`
is false, `install` raises the already-installed error before any other
statement runs, and the returned filesystem is exactly the input one: no
directory is created, the download is never consulted, and every existing
file's bytes are unchanged. -/
theorem install_blocks_when_already_installed (c : InstallSpec) (fs : FSState)
    (h : fileExists fs c.installPath = true) :
    install c false fs = (some InstallError.alreadyInstalled, fs) := by
  unfold install
  rw [h]
  simp

/-- Witness for claim C7: installing over an existing binary without
`force` fails and leaves the filesystem untouched. -/
theorem install_blocks_witness :
    install cfgTar false fsWithBinary = (some InstallError.alreadyInstalled, fsWithBinary) :=
  install_blocks_when_already_installed cfgTar fsWithBinary (by decide)

/-- Claim C8: on every successful install — the existence guard passes, the
download succeeded, the archive kind agrees with the URL-suffix dispatch
(tar for a `gz`-suffixed URL, zip otherwise) and the archive's first member
carries bytes — the destination file contains exactly the bytes of the
first member of the downloaded archive and its permission mode is `0o770`
(read/write/execute for owner and group, nothing for others). -/
theorem install_writes_first_member (c : InstallSpec) (force : Bool) (fs : FSState)
    (archive : Archive) (bytes : List Nat)
    (hdl : c.download = some archive)
    (hkind : matchesUrlKind c.downloadUrl archive = true)
    (hfirst : firstMemberBytes archive = some bytes)
    (hnb : (fileExists fs c.installPath && !force) = false) :
    (install c force fs).1 = none
      ∧ (install c force fs).2.files.lookup c.installPath = some bytes
      ∧ (install c force fs).2.modes.lookup c.installPath = some 0o770 := by
  unfold install
  rw [hnb, hdl]
  simp only [Bool.false_eq_true, if_false]
  cases archive with
  | zip ms =>
    have hgz : pyEndsWith c.downloadUrl "gz" = false := by
      simpa [matchesUrlKind] using hkind
    rw [hgz]
    simp only [Bool.false_eq_true, if_false]
    cases ms with
    | nil => exact absurd hfirst (by simp [firstMemberBytes])
    | cons m rest =>
      obtain rfl : m = bytes := by simpa [firstMemberBytes] using hfirst
      refine ⟨rfl, ?_, ?_⟩
      · simp [extract_zip, chmodFS, writeFile, List.lookup]
      · simp [extract_zip, chmodFS, writeFile, List.lookup]
  | tarGz ms =>
    have hgz : pyEndsWith c.downloadUrl "gz" = true := by
      simpa [matchesUrlKind] using hkind
    rw [hgz]
    simp only [if_true]
    cases ms with
    | nil => exact absurd hfirst (by simp [firstMemberBytes])
    | cons m rest =>
      cases m with
      | none => exact absurd hfirst (by simp [firstMemberBytes])
      | some b =>
        obtain rfl : b = bytes := by simpa [firstMemberBytes] using hfirst
        refine ⟨rfl, ?_, ?_⟩
        · simp [extract_gzip, chmodFS, writeFile, List.lookup]
        · simp [extract_gzip, chmodFS, writeFile, List.lookup]

/-- Witness for claim C8: installing a tar archive with a single member
`[1, 2, 3]` onto the empty filesystem writes those bytes to the destination
path with mode `0o770`. -/
theorem install_writes_witness :
    (install cfgTar false fsEmpty).1 = none
      ∧ (install cfgTar false fsEmpty).2.files.lookup "bin/raiden-1.0.0" = some [1, 2, 3]
      ∧ (install cfgTar false fsEmpty).2.modes.lookup "bin/raiden-1.0.0" = some 0o770 :=
  install_writes_first_member cfgTar false fsEmpty (Archive.tarGz [some [1, 2, 3]])
    [1, 2, 3] rfl (by decide) rfl (by decide)

/-! ## Listing theorems -/

/-- Claim C9 counterexample: the object-storage key
`raiden-nightly-2020-13-01T10-20-30-v1.2.3-linux-x86_64.tar.gz` matches the
nightly file pattern (all timestamp groups are digit runs) but encodes
month `13`, so the `datetime(...)` call inside `_get_release_data` raises
`ValueError` and the whole listing raises instead of skipping the entry:
listing is NOT raise-free on malformed entries. -/
theorem nightly_listing_raises_on_invalid_date :
    nightly_make_releases [nightlyBadKey] = ListingResult.valueError := by decide

/-- Claim C9 (amended): listing silently discards entries whose asset name
or object key fails the channel's pattern — a GitHub release record with no
matching asset yields no descriptor and a non-matching nightly key is
skipped, neither aborts the listing — and a matching nightly key with a
valid timestamp contributes its descriptor; however a nightly key that
matches the pattern but encodes an invalid calendar timestamp makes the
listing raise `ValueError` instead of being skipped, so the raise-free
guarantee only covers non-matching entries. -/
theorem listing_skips_nonmatching_entries
    (rd : ReleaseData) (rds : List ReleaseData) (k : String) (keys : List String)
    (k2 : String) (keys2 : List String) (g : NightlyGroups) (tail : List NightlyRelease)
    (h1 : ∀ a ∈ rd.assets, testnet_get_version_data a.name = none)
    (h2 : parseNightlySearch k.data = none) :
    make_releases testnet_get_version_data (rd :: rds)
        = make_releases testnet_get_version_data rds
      ∧ nightly_make_releases (k :: keys) = nightly_make_releases keys
      ∧ (parseNightlySearch k2.data = some g → validGroups g = true →
          nightly_make_releases keys2 = ListingResult.ok tail →
          nightly_make_releases (k2 :: keys2)
            = ListingResult.ok (nightlyReleaseOfGroups g :: tail)) := by
  refine ⟨?_, ?_, ?_⟩
  · have hmr : make_release testnet_get_version_data rd = none := by
      unfold make_release
      rw [List.findSome?_eq_none_iff]
      intro a ha
      rw [h1 a ha]
      rfl
    simp [make_releases, hmr]
  · simp [nightly_make_releases, h2]
  · intro hp hv ht
    simp [nightly_make_releases, hp, hv, ht]

/-- Witness for the amended claim C9: a record whose only asset is
`README.md` contributes nothing to a testnet listing, the key `nope`
contributes nothing to a nightly listing, and the well-formed key
`nightlyGoodKey` contributes exactly its descriptor. -/
theorem listing_skips_witness :
    make_releases testnet_get_version_data [rdNoMatch]
        = make_releases testnet_get_version_data []
      ∧ nightly_make_releases ["nope"] = nightly_make_releases []
      ∧ nightly_make_releases [nightlyGoodKey]
          = ListingResult.ok [nightlyReleaseOfGroups nightlyGoodGroups] := by
  obtain ⟨w1, w2, w3⟩ := listing_skips_nonmatching_entries rdNoMatch [] "nope" []
    nightlyGoodKey [] nightlyGoodGroups [] (by decide) (by decide)
  exact ⟨w1, w2, w3 (by decide) (by decide) rfl⟩
